import Mathlib

/-!
Shallow embedding of tools/mruby/mruby.c: the command-line front end of the
mruby interpreter.  Strings from the C code are modelled as lists of
characters, file handles as inductive values, and the external interpreter
engine as an oracle record.  Every definition is translated from the C
source; line numbers in comments refer to tools/mruby/mruby.c.
-/

set_option autoImplicit false

/-- C strings are modelled as lists of characters. -/
abbrev Str := List Char

/-- RITEBIN_EXT constant (line 25). -/
def riteBinExt : Str := ".mrb".data

/-- C_EXT constant (line 26). -/
def cExt : Str := ".c".data

/-- args_err_t: kErrNoFunctionName (line 36). -/
def kErrNoFunctionName : Int := -2

/-- args_err_t: kErrUnkownLongOption (line 37). -/
def kErrUnkownLongOption : Int := -3

/-- args_err_t: kErrUnkownOption (line 38). -/
def kErrUnkownOption : Int := -4

/-- EXIT_SUCCESS. -/
def EXIT_SUCCESS : Int := 0

/-- EXIT_FAILURE. -/
def EXIT_FAILURE : Int := 1

/-- Index of the last occurrence of a dot, as computed by strrchr(s, c)
(get_outfilename, line 89). -/
def lastDotIdx : Str → Option Nat
  | [] => none
  | c :: cs =>
    match lastDotIdx cs with
    | some i => some (i + 1)
    | none => if c = '.' then some 0 else none

/-- get_outfilename (lines 80-95): copy infile; when ext is nonempty,
overwrite from the last dot (or append at the end when there is no dot)
with ext. -/
def get_outfilename (infile ext : Str) : Str :=
  if ext = [] then infile
  else
    match lastDotIdx infile with
    | none => infile ++ ext
    | some i => infile.take i ++ ext

/-- An input file handle: stdin or an opened file (struct _args, rfp). -/
inductive RFile where
  | stdinF
  | fileF (name : Str)
  deriving DecidableEq

/-- An output file handle: stdout or an opened file (struct _args, wfp). -/
inductive WFile where
  | stdoutF
  | fileF (name : Str)
  deriving DecidableEq

/-- struct _args (lines 41-54).  The bit-fields are booleans; argvSet
records whether the args->argv buffer was allocated (line 217). -/
structure Args where
  rfp : Option RFile := none
  wfp : Option WFile := none
  filename : Option Str := none
  initname : Option Str := none
  ext : Str := riteBinExt
  cmdline : Option Str := none
  fname : Bool := false
  mrbfile : Bool := false
  check_syntax : Bool := false
  verbose : Bool := false
  argvSet : Bool := false
  argv : List Str := []
  deriving DecidableEq

/-- Modelled from the spec: the version banner printed by the engine
routine mrb_show_version, which lives outside this file set. -/
def versionText : Str := "mruby version banner".data

/-- Modelled from the spec: the copyright text printed by the engine
routine mrb_show_copyright, which lives outside this file set. -/
def copyrightText : Str := "mruby copyright text".data

/-- printf message of line 152. -/
def noCodeMsg (prog : Str) : Str := prog ++ ": No code specified for -e".data

/-- printf message of line 171. -/
def noFuncMsg (prog : Str) : Str := prog ++ ": Function name is not specified.".data

/-- printf message of line 210. -/
def openErrMsg (prog f : Str) : Str :=
  prog ++ ": Cannot open program file. (".data ++ f ++ ")".data

/-- printf message of line 237. -/
def outErrMsg (prog f : Str) : Str :=
  prog ++ ": Cannot open output file. (".data ++ f ++ ")".data

/-- Local state of the parse_args loop: the args record under construction
plus the locals output, infile, outfile (lines 100-102) and the lines
printed so far. -/
structure LoopSt where
  args : Args := {}
  output : Bool := false
  infile : Option Str := none
  outfile : Option Str := none
  out : List Str := []
  deriving DecidableEq

/-- Outcome of the option loop (lines 110-199): exitP models the exit()
calls for version/copyright; err models goto exit with the current result
code; fall models falling through to line 201 with the remaining tokens. -/
inductive LoopOut where
  | exitP (code : Int) (st : LoopSt)
  | err (result : Int) (st : LoopSt)
  | fall (st : LoopSt) (rest : List Str)
  deriving DecidableEq

/-- The append_cmdline block (lines 137-149): first fragment is copied,
later fragments are appended after a newline. -/
def addCmd (st : LoopSt) (item : Str) : LoopSt :=
  { st with args := { st.args with
      cmdline := some (match st.args.cmdline with
        | none => item
        | some c => c ++ '\n' :: item) } }

/-- State update of the e switch case before the append logic: line 130
sets args->filename to the literal "-e". -/
def setFnE (st : LoopSt) : LoopSt :=
  { st with args := { st.args with filename := some ('-' :: 'e' :: []) } }

/-- State update of the B switch case before the emptiness check: lines
168-169 set args->ext to C_EXT and args->initname to the option text. -/
def setB (st : LoopSt) (tl : Str) : LoopSt :=
  { st with args := { st.args with ext := cExt, initname := some tl } }

/-- The option loop of parse_args (lines 110-199), one branch per switch
label.  prog is origargv[0], used in error messages. -/
def parseLoop (prog : Str) : LoopSt → List Str → LoopOut
  | st, [] => .fall st []
  | st, t :: rest =>
    match t with
    | [] => .fall st ([] :: rest)
    | c0 :: t1 =>
      if c0 = '-' then
        match t1 with
        | [] =>
          -- lines 114-119: a lone dash selects stdin, consumes the token
          -- and breaks out of the loop
          .fall { st with args := { st.args with filename := some ['-'], rfp := some .stdinF },
                          infile := some ['-'] } rest
        | c :: tl =>
          if c = 'b' then
            parseLoop prog { st with args := { st.args with mrbfile := true } } rest
          else if c = 'c' then
            parseLoop prog { st with args := { st.args with check_syntax := true } } rest
          else if c = 'e' then
            if tl ≠ [] then parseLoop prog (addCmd (setFnE st) tl) rest
            else
              match rest with
              | item :: rest2 => parseLoop prog (addCmd (setFnE st) item) rest2
              | [] => .err 0 { setFnE st with out := st.out ++ [noCodeMsg prog] }
          else if c = 'v' then
            parseLoop prog { st with out := st.out ++ [versionText],
                                     args := { st.args with verbose := true } } rest
          else if c = 'O' then parseLoop prog { st with output := true } rest
          else if c = 'o' then
            parseLoop prog { st with outfile := some (get_outfilename tl []) } rest
          else if c = 'B' then
            if tl = [] then
              .err kErrNoFunctionName { setB st tl with out := st.out ++ [noFuncMsg prog] }
            else parseLoop prog (setB st tl) rest
          else if c = '-' then
            if tl = "version".data then .exitP 0 { st with out := st.out ++ [versionText] }
            else if tl = "verbose".data then
              parseLoop prog { st with args := { st.args with verbose := true } } rest
            else if tl = "copyright".data then
              .exitP 0 { st with out := st.out ++ [copyrightText] }
            else .err kErrUnkownLongOption st
          else .err kErrUnkownOption st
      else .fall st ((c0 :: t1) :: rest)

/-- Environment oracle: which files fopen can open for reading and for
writing, and the stdin condition tested at lines 350-358. -/
structure Env where
  canRead : Str → Bool
  canWrite : Str → Bool
  stdinEmptyNonPipe : Bool

/-- Result record of parse_args.  exited models the exit() calls made
inside the function; retval is the value of the return statement at line
244; result is the internal result variable; out is everything printed via
printf; opened lists files opened by fopen, in order; openFailed records
that an fopen call failed. -/
structure ParseResult where
  exited : Option Int := none
  retval : Int := 0
  result : Int := 0
  args : Args := {}
  out : List Str := []
  opened : List Str := []
  openFailed : Bool := false
  deriving DecidableEq

/-- Outcome of the input-acquisition block (lines 201-216): either goto
exit on an fopen failure, or continue with the updated state, the leftover
tokens and the list of files opened. -/
inductive PostIn where
  | fail (pr : ParseResult)
  | ok (st : LoopSt) (rest : List Str) (opened : List Str)

/-- Input acquisition (lines 201-216): when neither stdin, an opened file
nor an inline command selected the input yet, either default to stdin (no
token left) or open the first leftover token as the program file. -/
def postInput (env : Env) (prog : Str) (st : LoopSt) (rest : List Str) : PostIn :=
  if st.args.rfp = none ∧ st.args.cmdline = none then
    match rest with
    | [] =>
      .ok { st with args := { st.args with filename := some ['-'], rfp := some .stdinF },
                    infile := some ['-'] } [] []
    | f :: rest2 =>
      -- line 207: filename and infile are set before the fopen call
      if env.canRead f then
        .ok { st with args := { st.args with filename := some f, rfp := some (.fileF f),
                                             fname := true },
                      infile := some f } rest2 [f]
      else
        .fail { args := { st.args with filename := some f },
                out := st.out ++ [openErrMsg prog f], openFailed := true }
  else .ok st rest []

/-- Lines 217-241: store the leftover tokens as the script argument
vector, then resolve and open the output file when one is wanted.  Every
branch ends at the exit label of line 242, which returns 0. -/
def postOutput (env : Env) (prog : Str) (st : LoopSt) (rest : List Str)
    (opened : List Str) : ParseResult :=
  let args1 : Args := { st.args with argv := rest, argvSet := true }
  if args1.check_syntax then
    { args := args1, out := st.out, opened := opened }
  else
    match (if st.output ∧ st.outfile = none then
             (if st.infile = none ∨ args1.cmdline ≠ none then some ['-']
              else if st.infile = some ['-'] then some ['-']
              else some (get_outfilename (st.infile.getD []) args1.ext))
           else st.outfile) with
    | none => { args := args1, out := st.out, opened := opened }
    | some o =>
      if o = ['-'] then
        { args := { args1 with wfp := some .stdoutF }, out := st.out, opened := opened }
      else if env.canWrite o then
        { args := { args1 with wfp := some (.fileF o) }, out := st.out,
          opened := opened ++ [o] }
      else
        { args := args1, out := st.out ++ [outErrMsg prog o], opened := opened,
          result := -1, openFailed := true }

/-- The part of parse_args after the option loop. -/
def postLoop (env : Env) (prog : Str) (st : LoopSt) (rest : List Str) : ParseResult :=
  match postInput env prog st rest with
  | .fail pr => pr
  | .ok st2 rest2 opened => postOutput env prog st2 rest2 opened

/-- parse_args (lines 97-245) with the program name and the option tokens
already split: run the option loop and then the input/output acquisition;
the C function returns 0 on every path that returns at all (line 244). -/
def parse_args_core (env : Env) (prog : Str) (toks : List Str) : ParseResult :=
  match parseLoop prog {} toks with
  | .exitP c st => { exited := some c, args := st.args, out := st.out }
  | .err r st => { result := r, args := st.args, out := st.out }
  | .fall st rest => postLoop env prog st rest

/-- parse_args on the full argument vector: argv[0] is the program name
and the loop starts at argv[1] (line 110). -/
def parse_args (env : Env) (argvFull : List Str) : ParseResult :=
  parse_args_core env (argvFull.headD []) argvFull.tail

/-- Sample file-system oracles used in concrete evaluations. -/
def envAll : Env := { canRead := fun _ => true, canWrite := fun _ => true,
                      stdinEmptyNonPipe := false }

/-- File-system oracle on which every fopen call fails. -/
def envNone : Env := { canRead := fun _ => false, canWrite := fun _ => false,
                       stdinEmptyNonPipe := false }

/-- A bytecode unit (mrb_irep) as used by showcallinfo: source filename,
debug line table, the iseq base address (as an integer) and its length. -/
structure Irep where
  fname : Option Str := none
  lines : Option (List Int) := none
  iseq : Int := 0
  ilen : Int := 0

/-- An engine procedure: whether it is a C function, its bytecode unit and
its defining class (classes are identified by numbers). -/
structure RProcM where
  cfunc : Bool := true
  irep : Irep := {}
  tclass : Nat := 0

/-- A call-info record (mrb_callinfo) as read by showcallinfo. -/
structure CallInfo where
  proc : RProcM := {}
  pc : Int := 0
  tclass : Nat := 0
  mid : Option Str := none

/-- The engine state read by showcallinfo: the call-info stack, its
capacity ciend - cibase, the ciidx instance variable of the exception, the
lastpc instance variable, and the class-name resolver. -/
structure TState where
  cibase : List CallInfo := []
  cilen : Int := 0
  ciidx : Int := -1
  lastpc : Int := 0
  clsName : Nat → Option Str := fun _ => none

/-- Decimal rendering of a natural number. -/
def natStr (n : Nat) : Str := (toString n).data

/-- Decimal rendering of an integer. -/
def intStr (n : Int) : Str := (toString n).data

/-- One iteration of the showcallinfo loop body (lines 274-323) at frame
index i, relative to the walked-from index top: empty when the frame is
skipped (C function, or no line number resolved), otherwise the one line
printed for the frame. -/
def frameLine (t : TState) (top : Int) (i : Nat) : List Str :=
  let ci := t.cibase.getD i {}
  if ci.proc.cfunc then []
  else
    let irep := ci.proc.irep
    let filename := irep.fname.getD "(unknown)".data
    let line : Int :=
      match irep.lines with
      | none => -1
      | some ls =>
        let pc := if (i : Int) + 1 ≤ top then (t.cibase.getD (i + 1) {}).pc else t.lastpc
        if irep.iseq ≤ pc ∧ pc < irep.iseq + irep.ilen then
          -- lines[pc - iseq - 1]; the index -1 case is an out-of-bounds
          -- read in C and is modelled as an unresolved line
          if pc - irep.iseq - 1 < 0 then -1
          else ls.getD (pc - irep.iseq - 1).toNat (-1)
        else -1
    if line = -1 then []
    else
      let sep : Str := if ci.tclass = ci.proc.tclass then ['.'] else ['#']
      let pre : Str := '\t' :: '[' :: natStr i ++ "] ".data ++ filename ++
        [':'] ++ intStr line
      match ci.mid with
      | some m =>
        match t.clsName ci.proc.tclass with
        | some cn => [pre ++ ":in ".data ++ cn ++ sep ++ m]
        | none => [pre ++ ":in ".data ++ m]
      | none => [pre]

/-- The showcallinfo loop (lines 274-323), walking frame indices from i
down to 0. -/
def walkFrames (t : TState) (top : Int) : Nat → List Str
  | 0 => frameLine t top 0
  | i + 1 => frameLine t top (i + 1) ++ walkFrames t top i

/-- showcallinfo (lines 261-324): print the trace header, clamp a ciidx
that is out of range to the guard value 10 (line 272), and walk the
call-info records from that index down to 0. -/
def showcallinfo (t : TState) : List Str :=
  let top : Int := if t.ciidx ≥ t.cilen then 10 else t.ciidx
  "trace:".data :: (if top < 0 then [] else walkFrames t top top.toNat)

/-- An exception object, reduced to its inspected representation as
printed by p (lines 14-20). -/
structure ExcObj where
  inspect : Str
  deriving DecidableEq

/-- mrb_load_file_cxt / mrb_load_string_cxt result: either the undef value
or a value whose mrb_fixnum reading is the given integer. -/
inductive LoadVal where
  | undef
  | val (fx : Int)
  deriving DecidableEq

/-- mrb_fixnum of a load result. -/
def LoadVal.fxv : LoadVal → Int
  | .undef => 0
  | .val n => n

/-- Oracle for the external interpreter engine: results of the engine
calls made by main, and the state read by showcallinfo. -/
structure Engine where
  readIrepRet : Int := 0
  runExcB : Option ExcObj := none
  loadVal : LoadVal := .val 0
  excAfterLoad : Option ExcObj := none
  tstate : TState := {}
  mirbRet : Int := 0
  dumpRet : Int := 0
  bdumpRet : Int := 0

/-- Engine operations main can invoke, recorded as an event trace. -/
inductive Event where
  | initLibs
  | mirbEv
  | defineARGV (l : List Str)
  | readIrep
  | runTop
  | loadFile (f : Str)
  | loadString (s : Str)
  | dumpIrep
  | bdumpIrep
  deriving DecidableEq

/-- Release counters for the resources of the run: input handle close,
output handle close, inline-command buffer free, argv buffer free,
compilation context creations and frees, mrb_close calls. -/
structure Resources where
  rfpClose : Nat := 0
  wfpClose : Nat := 0
  cmdlineFree : Nat := 0
  argvFree : Nat := 0
  ctxNew : Nat := 0
  ctxFree : Nat := 0
  mrbClose : Nat := 0
  deriving DecidableEq

/-- cleanup (lines 247-259): close the input handle unless it is stdin,
close the output handle, free the command line unless fname is set, free
the argv buffer, close the interpreter. -/
def cleanupRes (args : Args) (r : Resources) : Resources :=
  { r with
    rfpClose := r.rfpClose + (match args.rfp with | some (.fileF _) => 1 | _ => 0),
    wfpClose := r.wfpClose + (if args.wfp.isSome then 1 else 0),
    cmdlineFree := r.cmdlineFree + (if args.cmdline.isSome ∧ args.fname = false then 1 else 0),
    argvFree := r.argvFree + (if args.argvSet then 1 else 0),
    mrbClose := r.mrbClose + 1 }

/-- fprintf message of line 370; the %s argument is args.cmdline. -/
def mrbLoadFailMsg (cmdline : Option Str) : Str :=
  "failed to load mrb file: ".data ++ cmdline.getD []

/-- fprintf message of line 336. -/
def invalidStateMsg : Str := "Invalid mrb_state, exiting mruby".data

/-- Observable outcome of a main run: exit status, the stdout and stderr
lines, the engine operations invoked, the release counters, and the files
opened. -/
structure MainOut where
  exit : Int
  stdout : List Str := []
  stderr : List Str := []
  events : List Event := []
  res : Resources := {}
  opened : List Str := []
  deriving DecidableEq

/-- The tail of the source-mode branch after the dump block (lines
412-422): the compilation context is freed, then a pending exception is
reported (with a trace only when the load result was not undef), or
Syntax OK is printed in check-syntax mode; finally cleanup runs and the
exit status is EXIT_SUCCESS exactly when n is 0 (line 426). -/
def afterCtx (eng : Engine) (args : Args) (n : Int) (v : LoadVal) (out0 : List Str)
    (ev : List Event) (opened : List Str) : MainOut :=
  match eng.excAfterLoad with
  | some e =>
    if v ≠ .undef then
      { exit := EXIT_FAILURE, stdout := out0 ++ showcallinfo eng.tstate ++ [e.inspect],
        events := ev, res := cleanupRes args { ctxNew := 1, ctxFree := 1 }, opened := opened }
    else
      { exit := EXIT_FAILURE, stdout := out0, events := ev,
        res := cleanupRes args { ctxNew := 1, ctxFree := 1 }, opened := opened }
  | none =>
    if args.check_syntax then
      { exit := if n = 0 then EXIT_SUCCESS else EXIT_FAILURE,
        stdout := out0 ++ ["Syntax OK".data], events := ev,
        res := cleanupRes args { ctxNew := 1, ctxFree := 1 }, opened := opened }
    else
      { exit := if n = 0 then EXIT_SUCCESS else EXIT_FAILURE, stdout := out0, events := ev,
        res := cleanupRes args { ctxNew := 1, ctxFree := 1 }, opened := opened }

/-- Execution dispatch (lines 367-423).  n0 is the value of n coming from
parse_args.  In bytecode mode the file is loaded and, unless checking
syntax, run; in source mode a compilation context is created and the
source is loaded from the file handle or the command line; with an output
handle and no syntax check, an undef or negative load result causes an
immediate EXIT_FAILURE return on which the context is not freed (lines
401-404). -/
def dispatch (eng : Engine) (args : Args) (n0 : Int) (out0 : List Str) (ev0 : List Event)
    (opened : List Str) : MainOut :=
  if args.mrbfile then
    if eng.readIrepRet < 0 then
      { exit := if eng.readIrepRet = 0 then EXIT_SUCCESS else EXIT_FAILURE,
        stdout := out0, stderr := [mrbLoadFailMsg args.cmdline],
        events := ev0 ++ [Event.readIrep], res := cleanupRes args {}, opened := opened }
    else if args.check_syntax = false then
      match eng.runExcB with
      | some e =>
        { exit := EXIT_FAILURE, stdout := out0 ++ showcallinfo eng.tstate ++ [e.inspect],
          events := ev0 ++ [Event.readIrep, Event.runTop], res := cleanupRes args {},
          opened := opened }
      | none =>
        { exit := EXIT_SUCCESS, stdout := out0,
          events := ev0 ++ [Event.readIrep, Event.runTop], res := cleanupRes args {},
          opened := opened }
    else
      { exit := if eng.readIrepRet = 0 then EXIT_SUCCESS else EXIT_FAILURE, stdout := out0,
        events := ev0 ++ [Event.readIrep], res := cleanupRes args {}, opened := opened }
  else
    let ev1 := ev0 ++ [match args.rfp with
      | some _ => Event.loadFile (args.filename.getD [])
      | none => Event.loadString (args.cmdline.getD [])]
    if args.wfp.isSome ∧ args.check_syntax = false then
      if eng.loadVal = .undef ∨ eng.loadVal.fxv < 0 then
        -- lines 401-404: cleanup and return EXIT_FAILURE; the context
        -- free of line 412 is skipped on this path
        { exit := EXIT_FAILURE, stdout := out0, events := ev1,
          res := cleanupRes args { ctxNew := 1 }, opened := opened }
      else if args.initname.isSome then
        afterCtx eng args eng.bdumpRet eng.loadVal out0 (ev1 ++ [Event.bdumpIrep]) opened
      else
        afterCtx eng args eng.dumpRet eng.loadVal out0 (ev1 ++ [Event.dumpIrep]) opened
    else
      afterCtx eng args n0 eng.loadVal out0 ev1 opened

/-- The usage text (lines 56-78). -/
def usageLines (prog : Str) : List Str :=
  ("Usage: ".data ++ prog ++ " [switches] programfile".data) ::
  ("  switches:".data) ::
  ("  -b           load and execute RiteBinary (mrb) file".data) ::
  ("  -c           check syntax only".data) ::
  ("  -e 'command' one line of script".data) ::
  ("  -O           compile".data) ::
  ("  -o<outfile>  place the output into <outfile>".data) ::
  ("  -B<symbol>   binary <symbol> output in C language format".data) ::
  ("  -v           print version number, then run in verbose mode".data) ::
  ("  --verbose    run in verbose mode".data) ::
  ("  --version    print the version".data) ::
  ("  --copyright  print the copyright".data) :: []

/-- main (lines 326-427).  openOk tells whether mrb_open0 returned a
state.  When parse_args called exit, the process ends there with that
status.  Otherwise main returns parse_args result directly when it is
negative or no input was selected (after printing usage), enters the
interactive loop on an empty non-pipe stdin with no output file, and
otherwise defines ARGV and dispatches. -/
def mainRun (openOk : Bool) (env : Env) (eng : Engine) (argvFull : List Str) : MainOut :=
  if openOk then
    match (parse_args env argvFull).exited with
    | some c =>
      { exit := c, stdout := (parse_args env argvFull).out,
        opened := (parse_args env argvFull).opened }
    | none =>
      if (parse_args env argvFull).retval < 0 ∨
         ((parse_args env argvFull).args.cmdline = none ∧
          (parse_args env argvFull).args.rfp = none) then
        { exit := (parse_args env argvFull).retval,
          stdout := (parse_args env argvFull).out ++ usageLines (argvFull.headD []),
          res := cleanupRes (parse_args env argvFull).args {},
          opened := (parse_args env argvFull).opened }
      else
        if (parse_args env argvFull).args.wfp = none ∧
           (parse_args env argvFull).args.rfp = some RFile.stdinF ∧
           env.stdinEmptyNonPipe = true then
          { exit := eng.mirbRet, stdout := (parse_args env argvFull).out,
            events := [Event.initLibs, Event.mirbEv],
            res := cleanupRes (parse_args env argvFull).args {},
            opened := (parse_args env argvFull).opened }
        else
          dispatch eng (parse_args env argvFull).args (parse_args env argvFull).retval
            (parse_args env argvFull).out
            ((if (parse_args env argvFull).args.wfp = none then [Event.initLibs] else []) ++
              [Event.defineARGV (parse_args env argvFull).args.argv])
            (parse_args env argvFull).opened
  else
    { exit := EXIT_FAILURE, stderr := [invalidStateMsg] }

/-- The string built by repeated -e options: the fragments joined by
single newline separators. -/
def joinNL : List Str → Str
  | [] => []
  | [s] => s
  | s :: t :: rest => s ++ '\n' :: joinNL (t :: rest)

theorem postOutput_retval (env : Env) (prog : Str) (st : LoopSt) (rest : List Str)
    (opened : List Str) : (postOutput env prog st rest opened).retval = 0 := by
  unfold postOutput
  dsimp only
  repeat first | rfl | split

theorem postOutput_exited (env : Env) (prog : Str) (st : LoopSt) (rest : List Str)
    (opened : List Str) : (postOutput env prog st rest opened).exited = none := by
  unfold postOutput
  dsimp only
  repeat first | rfl | split

theorem postInput_fail (env : Env) (prog : Str) (st : LoopSt) (rest : List Str)
    (pr : ParseResult) (h : postInput env prog st rest = .fail pr) :
    pr.retval = 0 ∧ pr.exited = none := by
  unfold postInput at h
  split at h
  · split at h
    · simp at h
    · split at h
      · simp at h
      · injection h with h'
        subst h'
        exact ⟨rfl, rfl⟩
  · simp at h

theorem postLoop_retval (env : Env) (prog : Str) (st : LoopSt) (rest : List Str) :
    (postLoop env prog st rest).retval = 0 := by
  unfold postLoop
  cases h : postInput env prog st rest with
  | fail pr => exact (postInput_fail env prog st rest pr h).1
  | ok st2 rest2 opened => exact postOutput_retval env prog st2 rest2 opened

theorem postLoop_exited (env : Env) (prog : Str) (st : LoopSt) (rest : List Str) :
    (postLoop env prog st rest).exited = none := by
  unfold postLoop
  cases h : postInput env prog st rest with
  | fail pr => exact (postInput_fail env prog st rest pr h).2
  | ok st2 rest2 opened => exact postOutput_exited env prog st2 rest2 opened

theorem parse_args_core_retval (env : Env) (prog : Str) (toks : List Str) :
    (parse_args_core env prog toks).retval = 0 := by
  unfold parse_args_core
  cases h : parseLoop prog {} toks with
  | exitP c st => rfl
  | err r st => rfl
  | fall st rest => exact postLoop_retval env prog st rest

theorem parse_args_retval (env : Env) (a : List Str) : (parse_args env a).retval = 0 :=
  parse_args_core_retval env (a.headD []) a.tail

theorem parseLoop_exit_zero (prog : Str) (st : LoopSt) (toks : List Str) :
    ∀ c stx, parseLoop prog st toks = .exitP c stx → c = 0 := by
  induction st, toks using parseLoop.induct prog <;> intro c stx h
  all_goals rw [parseLoop.eq_def] at h
  all_goals simp_all +decide

theorem plNil (prog : Str) (st : LoopSt) : parseLoop prog st [] = .fall st [] := by
  rw [parseLoop.eq_def]

theorem plEmptyTok (prog : Str) (st : LoopSt) (rest : List Str) :
    parseLoop prog st ([] :: rest) = .fall st ([] :: rest) := by
  rw [parseLoop.eq_def]

theorem plNonflag (prog : Str) (st : LoopSt) (c0 : Char) (t1 : Str) (rest : List Str)
    (h : c0 ≠ '-') : parseLoop prog st ((c0 :: t1) :: rest) = .fall st ((c0 :: t1) :: rest) := by
  rw [parseLoop.eq_def]
  simp [h]

theorem plDash (prog : Str) (st : LoopSt) (rest : List Str) :
    parseLoop prog st (['-'] :: rest) =
      .fall { st with args := { st.args with filename := some ['-'], rfp := some .stdinF },
                      infile := some ['-'] } rest := by
  rw [parseLoop.eq_def]
  simp

theorem plOptSmallB (prog : Str) (st : LoopSt) (tl : Str) (rest : List Str) :
    parseLoop prog st (('-' :: 'b' :: tl) :: rest) =
      parseLoop prog { st with args := { st.args with mrbfile := true } } rest := by
  rw [parseLoop.eq_def]
  simp +decide

theorem plOptC (prog : Str) (st : LoopSt) (tl : Str) (rest : List Str) :
    parseLoop prog st (('-' :: 'c' :: tl) :: rest) =
      parseLoop prog { st with args := { st.args with check_syntax := true } } rest := by
  rw [parseLoop.eq_def]
  simp +decide

theorem plOptEAttached (prog : Str) (st : LoopSt) (tl : Str) (rest : List Str) (h : tl ≠ []) :
    parseLoop prog st (('-' :: 'e' :: tl) :: rest) =
      parseLoop prog (addCmd (setFnE st) tl) rest := by
  rw [parseLoop.eq_def]
  simp +decide [h]

theorem plOptENext (prog : Str) (st : LoopSt) (item : Str) (rest2 : List Str) :
    parseLoop prog st (('-' :: 'e' :: []) :: item :: rest2) =
      parseLoop prog (addCmd (setFnE st) item) rest2 := by
  rw [parseLoop.eq_def]
  simp +decide

theorem plOptENoCode (prog : Str) (st : LoopSt) :
    parseLoop prog st [('-' :: 'e' :: [])] =
      .err 0 { setFnE st with out := st.out ++ [noCodeMsg prog] } := by
  rw [parseLoop.eq_def]
  simp +decide

theorem plOptV (prog : Str) (st : LoopSt) (tl : Str) (rest : List Str) :
    parseLoop prog st (('-' :: 'v' :: tl) :: rest) =
      parseLoop prog { st with out := st.out ++ [versionText],
                               args := { st.args with verbose := true } } rest := by
  rw [parseLoop.eq_def]
  simp +decide

theorem plOptBigO (prog : Str) (st : LoopSt) (tl : Str) (rest : List Str) :
    parseLoop prog st (('-' :: 'O' :: tl) :: rest) =
      parseLoop prog { st with output := true } rest := by
  rw [parseLoop.eq_def]
  simp +decide

theorem plOptLittleO (prog : Str) (st : LoopSt) (tl : Str) (rest : List Str) :
    parseLoop prog st (('-' :: 'o' :: tl) :: rest) =
      parseLoop prog { st with outfile := some (get_outfilename tl []) } rest := by
  rw [parseLoop.eq_def]
  simp +decide

theorem plOptBEmpty (prog : Str) (st : LoopSt) (rest : List Str) :
    parseLoop prog st (('-' :: 'B' :: []) :: rest) =
      .err kErrNoFunctionName { setB st [] with out := st.out ++ [noFuncMsg prog] } := by
  rw [parseLoop.eq_def]
  simp +decide

theorem plOptBSym (prog : Str) (st : LoopSt) (tl : Str) (rest : List Str) (h : tl ≠ []) :
    parseLoop prog st (('-' :: 'B' :: tl) :: rest) = parseLoop prog (setB st tl) rest := by
  rw [parseLoop.eq_def]
  simp +decide [h]

theorem plLongVersion (prog : Str) (st : LoopSt) (rest : List Str) :
    parseLoop prog st (('-' :: '-' :: "version".data) :: rest) =
      .exitP 0 { st with out := st.out ++ [versionText] } := by
  rw [parseLoop.eq_def]
  simp +decide

theorem plLongVerbose (prog : Str) (st : LoopSt) (rest : List Str) :
    parseLoop prog st (('-' :: '-' :: "verbose".data) :: rest) =
      parseLoop prog { st with args := { st.args with verbose := true } } rest := by
  rw [parseLoop.eq_def]
  simp +decide

theorem plLongCopyright (prog : Str) (st : LoopSt) (rest : List Str) :
    parseLoop prog st (('-' :: '-' :: "copyright".data) :: rest) =
      .exitP 0 { st with out := st.out ++ [copyrightText] } := by
  rw [parseLoop.eq_def]
  simp +decide

theorem plLongUnknown (prog : Str) (st : LoopSt) (tl : Str) (rest : List Str)
    (h1 : tl ≠ "version".data) (h2 : tl ≠ "verbose".data) (h3 : tl ≠ "copyright".data) :
    parseLoop prog st (('-' :: '-' :: tl) :: rest) = .err kErrUnkownLongOption st := by
  rw [parseLoop.eq_def]
  simp +decide [h1, h2, h3]

theorem plShortUnknown (prog : Str) (st : LoopSt) (c : Char) (tl : Str) (rest : List Str)
    (hb : c ≠ 'b') (hc : c ≠ 'c') (he : c ≠ 'e') (hv : c ≠ 'v') (hO : c ≠ 'O') (ho : c ≠ 'o')
    (hB : c ≠ 'B') (hd : c ≠ '-') :
    parseLoop prog st (('-' :: c :: tl) :: rest) = .err kErrUnkownOption st := by
  rw [parseLoop.eq_def]
  simp +decide [hb, hc, he, hv, hO, ho, hB, hd]

theorem parse_args_core_exited_zero (env : Env) (prog : Str) (toks : List Str) (c : Int)
    (h : (parse_args_core env prog toks).exited = some c) :
    c = 0 ∧ (parse_args_core env prog toks).opened = [] := by
  unfold parse_args_core at h ⊢
  cases hl : parseLoop prog {} toks with
  | exitP c0 st =>
    rw [hl] at h
    have h0 : c0 = c := by simpa using h
    subst h0
    exact ⟨parseLoop_exit_zero _ _ _ _ _ hl, rfl⟩
  | err r st => rw [hl] at h; simp at h
  | fall st rest => rw [hl] at h; simp [postLoop_exited] at h

theorem parse_args_exited_zero (env : Env) (a : List Str) (c : Int)
    (h : (parse_args env a).exited = some c) :
    c = 0 ∧ (parse_args env a).opened = [] :=
  parse_args_core_exited_zero env (a.headD []) a.tail c h

theorem postOutput_argv (env : Env) (prog : Str) (st : LoopSt) (rest : List Str)
    (opened : List Str) : (postOutput env prog st rest opened).args.argv = rest := by
  unfold postOutput
  dsimp only
  repeat first | rfl | split

theorem postOutput_filename (env : Env) (prog : Str) (st : LoopSt) (rest : List Str)
    (opened : List Str) :
    (postOutput env prog st rest opened).args.filename = st.args.filename := by
  unfold postOutput
  dsimp only
  repeat first | rfl | split

theorem postOutput_cmdline (env : Env) (prog : Str) (st : LoopSt) (rest : List Str)
    (opened : List Str) :
    (postOutput env prog st rest opened).args.cmdline = st.args.cmdline := by
  unfold postOutput
  dsimp only
  repeat first | rfl | split

theorem postLoop_cmdline_of_cmd (env : Env) (prog : Str) (st : LoopSt) (rest : List Str)
    (c : Str) (h : st.args.cmdline = some c) :
    (postLoop env prog st rest).args.cmdline = some c := by
  unfold postLoop postInput
  have hcond : ¬(st.args.rfp = none ∧ st.args.cmdline = none) := by
    intro hc
    rw [h] at hc
    exact absurd hc.2 (by simp)
  rw [if_neg hcond]
  rw [postOutput_cmdline]
  exact h

theorem joinNL_cons (s : Str) (ss : List Str) :
    joinNL (s :: ss) = s ++ (ss.map (fun x => '\n' :: x)).flatten := by
  induction ss generalizing s with
  | nil => simp [joinNL]
  | cons t r ih => simp [joinNL, ih t, List.append_assoc]

theorem parseLoopE (prog : Str) (ss : List Str) : ∀ st acc, st.args.cmdline = some acc →
    ∃ stx, parseLoop prog st (ss.flatMap (fun s => ['-' :: 'e' :: [], s])) = .fall stx [] ∧
      stx.args.cmdline = some (acc ++ (ss.map (fun x => '\n' :: x)).flatten) := by
  induction ss with
  | nil =>
    intro st acc h
    exact ⟨st, plNil prog st, by simpa using h⟩
  | cons s rest ih =>
    intro st acc h
    rw [List.flatMap_cons, List.cons_append, List.singleton_append, plOptENext]
    have hc : (addCmd (setFnE st) s).args.cmdline = some (acc ++ '\n' :: s) := by
      simp [addCmd, setFnE, h]
    obtain ⟨stx, h1, h2⟩ := ih (addCmd (setFnE st) s) (acc ++ '\n' :: s) hc
    exact ⟨stx, h1, by simpa [List.append_assoc] using h2⟩

/-- C3: the argument parser returns 0 (success) on every one of its error
exit paths reached through the centralized early exit: whenever parse_args
records a missing-function-name, unknown-long-option or
unknown-short-option error code, or an fopen failure occurred, the value
it returns to its caller is still 0. -/
theorem parser_returns_zero_on_error_paths (env : Env) (a : List Str)
    (h : (parse_args env a).result = kErrNoFunctionName ∨
         (parse_args env a).result = kErrUnkownLongOption ∨
         (parse_args env a).result = kErrUnkownOption ∨
         (parse_args env a).openFailed = true) :
    (parse_args env a).retval = 0 :=
  parse_args_retval env a

/-- Witness for C3 at the concrete invocation mruby -B, which records the
missing-function-name error code. -/
theorem parser_returns_zero_on_error_paths_witness :
    (parse_args envNone ["mruby".data, ['-', 'B']]).result = kErrNoFunctionName ∧
    (parse_args envNone ["mruby".data, ['-', 'B']]).retval = 0 :=
  ⟨by decide, parser_returns_zero_on_error_paths envNone ["mruby".data, ['-', 'B']]
    (Or.inl (by decide))⟩

/-- C7: the -e flag is repeatable and accumulating: for every nonempty
sequence of fragments passed through -e options, the accumulated inline
script is the concatenation of the fragments joined by one newline
separator each. -/
theorem inline_cmd_accumulates (env : Env) (prog : Str) (ss : List Str) (hne : ss ≠ []) :
    (parse_args env (prog :: ss.flatMap (fun s => ['-' :: 'e' :: [], s]))).args.cmdline =
      some (joinNL ss) := by
  obtain ⟨s0, ss2, rfl⟩ : ∃ s0 ss2, ss = s0 :: ss2 := by
    cases ss with
    | nil => exact absurd rfl hne
    | cons a b => exact ⟨a, b, rfl⟩
  unfold parse_args parse_args_core
  simp only [List.headD_cons, List.tail_cons]
  rw [List.flatMap_cons, List.cons_append, List.singleton_append, plOptENext]
  have hc : (addCmd (setFnE {}) s0).args.cmdline = some s0 := by simp [addCmd, setFnE]
  obtain ⟨stx, h1, h2⟩ := parseLoopE prog ss2 (addCmd (setFnE {}) s0) s0 hc
  rw [h1]
  show (postLoop env prog stx []).args.cmdline = _
  rw [postLoop_cmdline_of_cmd env prog stx [] _ h2, joinNL_cons]

/-- Witness for C7: -e a -e b accumulates the script a newline b. -/
theorem inline_cmd_accumulates_witness :
    (parse_args envNone ("mruby".data ::
        ["a".data, "b".data].flatMap (fun s => ['-' :: 'e' :: [], s]))).args.cmdline =
      some "a\nb".data :=
  (inline_cmd_accumulates envNone "mruby".data ["a".data, "b".data] (by decide)).trans
    (by decide)

theorem lastDotIdx_of_nodot (f : Str) (h : '.' ∉ f) : lastDotIdx f = none := by
  induction f with
  | nil => rfl
  | cons c cs ih =>
    simp only [List.mem_cons, not_or] at h
    unfold lastDotIdx
    rw [ih h.2, if_neg (fun hc => h.1 hc.symm)]

theorem lastDotIdx_append_nodot (a b : Str) (hb : '.' ∉ b) :
    lastDotIdx (a ++ '.' :: b) = some a.length := by
  induction a with
  | nil =>
    simp only [List.nil_append]
    unfold lastDotIdx
    rw [lastDotIdx_of_nodot b hb]
    simp
  | cons c cs ih =>
    rw [List.cons_append]
    unfold lastDotIdx
    rw [ih]
    simp

theorem get_outfilename_ne_dash (f : Str) : get_outfilename f riteBinExt ≠ ['-'] := by
  have hext : riteBinExt = ['.', 'm', 'r', 'b'] := by decide
  unfold get_outfilename
  rw [hext]
  split
  · simp_all
  · split <;> (intro he; have hl := congrArg List.length he; simp at hl)

/-- C6: when compiled output is requested with -O and no explicit -o path
and a real input filename was given, the derived output filename is the
input filename with its final extension replaced (or, when there is no
dot, with the appending) of the configured output extension, and the
output handle is opened on that derived name; with the default bytecode
extension, input foo.rb derives foo.mrb. -/
theorem outfile_derived_from_input :
    (∀ f ext, ext ≠ [] → '.' ∉ f → get_outfilename f ext = f ++ ext) ∧
    (∀ a b ext, ext ≠ [] → '.' ∉ b → get_outfilename (a ++ '.' :: b) ext = a ++ ext) ∧
    (∀ env f, f.head? ≠ some '-' → f ≠ [] → env.canRead f = true →
      env.canWrite (get_outfilename f riteBinExt) = true →
      (parse_args env ["mruby".data, '-' :: 'O' :: [], f]).args.wfp =
        some (.fileF (get_outfilename f riteBinExt))) := by
  refine ⟨?_, ?_, ?_⟩
  · intro f ext hne hnd
    unfold get_outfilename
    rw [if_neg hne, lastDotIdx_of_nodot f hnd]
  · intro a b ext hne hnd
    unfold get_outfilename
    rw [if_neg hne, lastDotIdx_append_nodot a b hnd]
    simp [List.take_left]
  · intro env f h1 h2 h3 h4
    obtain ⟨c0, t1, rfl⟩ : ∃ c0 t1, f = c0 :: t1 := by
      cases f with
      | nil => exact absurd rfl h2
      | cons a b => exact ⟨a, b, rfl⟩
    have hc0 : c0 ≠ '-' := by simpa using h1
    have hdash := get_outfilename_ne_dash (c0 :: t1)
    unfold parse_args parse_args_core
    simp only [List.headD_cons, List.tail_cons]
    rw [plOptBigO, plNonflag _ _ _ _ _ hc0]
    show (postLoop env _ _ _).args.wfp = _
    unfold postLoop postInput
    rw [if_pos ⟨rfl, rfl⟩]
    dsimp only
    rw [if_pos h3]
    simp [postOutput, hc0, hdash, h4]

/-- Witness for C6: input foo.rb with the default bytecode extension
derives output foo.mrb, and the output handle is opened on it. -/
theorem outfile_derived_from_input_witness :
    get_outfilename "foo.rb".data riteBinExt = "foo.mrb".data ∧
    (parse_args envAll ["mruby".data, '-' :: 'O' :: [], "foo.rb".data]).args.wfp =
      some (.fileF "foo.mrb".data) := by
  constructor
  · have h := outfile_derived_from_input.2.1 "foo".data "rb".data riteBinExt
      (by decide) (by decide)
    have e1 : "foo.rb".data = "foo".data ++ '.' :: "rb".data := by decide
    rw [e1, h]
    decide
  · have h := outfile_derived_from_input.2.2 envAll "foo.rb".data
      (by decide) (by decide) (by decide) (by decide)
    rw [h]
    decide

/-- C9: encountering the long option version or copyright during parsing
prints the corresponding text and terminates the process immediately with
success status 0, before any file is opened: the loop exits the process
on those tokens, every process exit made inside parse_args carries status
0 with no file opened, and a run that ends inside parse_args performs no
engine operation. -/
theorem version_copyright_exit_immediately :
    (∀ prog st rest, parseLoop prog st (('-' :: '-' :: "version".data) :: rest) =
        .exitP 0 { st with out := st.out ++ [versionText] }) ∧
    (∀ prog st rest, parseLoop prog st (('-' :: '-' :: "copyright".data) :: rest) =
        .exitP 0 { st with out := st.out ++ [copyrightText] }) ∧
    (∀ env a c, (parse_args env a).exited = some c →
        c = 0 ∧ (parse_args env a).opened = []) ∧
    (∀ env eng a c, (parse_args env a).exited = some c →
        (mainRun true env eng a).exit = 0 ∧ (mainRun true env eng a).events = [] ∧
        (mainRun true env eng a).opened = []) := by
  refine ⟨plLongVersion, plLongCopyright, parse_args_exited_zero, ?_⟩
  intro env eng a c h
  obtain ⟨hc, hop⟩ := parse_args_exited_zero env a c h
  unfold mainRun
  rw [if_pos rfl, h]
  exact ⟨hc, rfl, hop⟩

/-- Witness for C9 at the concrete invocation mruby --version. -/
theorem version_copyright_exit_immediately_witness :
    (mainRun true envNone {} ["mruby".data, '-' :: '-' :: "version".data]).exit = 0 ∧
    (mainRun true envNone {} ["mruby".data, '-' :: '-' :: "version".data]).events = [] ∧
    (mainRun true envNone {} ["mruby".data, '-' :: '-' :: "version".data]).opened = [] :=
  version_copyright_exit_immediately.2.2.2 envNone {}
    ["mruby".data, '-' :: '-' :: "version".data] 0 (by decide)

/-- C10: when the engine open operation fails at startup, main prints an
error to standard error and returns failure status without parsing
arguments, opening files, or invoking any engine operation. -/
theorem open_failure_exits_before_everything (env : Env) (eng : Engine) (a : List Str) :
    mainRun false env eng a = { exit := EXIT_FAILURE, stderr := [invalidStateMsg] } := rfl

/-- C1 (code bug evidence): on an invocation whose script filename cannot
be opened, the open-file error naming the path and then the usage text
are printed and no engine operation runs, but the process exit status is
0 (success), not the nonzero failure status the claim requires. -/
theorem open_error_exits_with_success_status :
    (mainRun true envNone {} ["mruby".data, "nosuch.rb".data]).exit = 0 ∧
    (mainRun true envNone {} ["mruby".data, "nosuch.rb".data]).stdout =
      openErrMsg "mruby".data "nosuch.rb".data :: usageLines "mruby".data ∧
    (mainRun true envNone {} ["mruby".data, "nosuch.rb".data]).events = [] := by
  decide

/-- C2 (code bug evidence): the invocation mruby -e a -B prints the
missing-function-name message and parse_args records the error code, yet
it returns 0, so main proceeds to compile and execute the accumulated
inline script and the process exits with status 0. -/
theorem missing_funcname_still_executes :
    (parse_args envNone ["mruby".data, '-' :: 'e' :: [], "a".data, ['-', 'B']]).result =
      kErrNoFunctionName ∧
    (mainRun true envNone {}
        ["mruby".data, '-' :: 'e' :: [], "a".data, ['-', 'B']]).stdout.head? =
      some (noFuncMsg "mruby".data) ∧
    Event.loadString "a".data ∈
      (mainRun true envNone {} ["mruby".data, '-' :: 'e' :: [], "a".data, ['-', 'B']]).events ∧
    (mainRun true envNone {} ["mruby".data, '-' :: 'e' :: [], "a".data, ['-', 'B']]).exit =
      0 := by
  decide

/-- C4 (code bug evidence): in source mode with an output file and no
syntax check, an undef load result takes the immediate-failure return on
which the compilation context was created but is never freed, while the
input handle, output handle and argv buffer are each released once. -/
theorem context_not_freed_on_early_failure :
    (mainRun true envAll { loadVal := .undef }
        ["mruby".data, '-' :: 'O' :: [], "foo.rb".data]).exit = EXIT_FAILURE ∧
    (mainRun true envAll { loadVal := .undef }
        ["mruby".data, '-' :: 'O' :: [], "foo.rb".data]).res =
      { rfpClose := 1, wfpClose := 1, argvFree := 1, ctxNew := 1, ctxFree := 0,
        mrbClose := 1 } := by
  decide

theorem mainRun_dispatch (env : Env) (eng : Engine) (a : List Str)
    (hex : (parse_args env a).exited = none)
    (hguard : ¬((parse_args env a).retval < 0 ∨
      ((parse_args env a).args.cmdline = none ∧ (parse_args env a).args.rfp = none)))
    (hmirb : ¬((parse_args env a).args.wfp = none ∧
      (parse_args env a).args.rfp = some RFile.stdinF ∧ env.stdinEmptyNonPipe = true)) :
    mainRun true env eng a =
      dispatch eng (parse_args env a).args (parse_args env a).retval (parse_args env a).out
        ((if (parse_args env a).args.wfp = none then [Event.initLibs] else []) ++
          [Event.defineARGV (parse_args env a).args.argv])
        (parse_args env a).opened := by
  unfold mainRun
  rw [if_pos rfl, hex]
  dsimp only
  rw [if_neg hguard, if_neg hmirb]

/-- C5: whenever the executed script leaves an unhandled exception
pending in the engine — bytecode mode after a non-negative load without
syntax check, or source mode actually executing (no output handle, no
syntax check, load result not undef) — the run prints the call-stack
trace of showcallinfo (which walks the call-info records from the most
recent index down to zero, skips C-function frames and clamps an
out-of-range index to the guard value 10) followed by the inspected
exception object, and the process exits with the failure status. -/
theorem unhandled_exception_trace_and_failure (env : Env) (eng : Engine) (a : List Str)
    (e : ExcObj)
    (hex : (parse_args env a).exited = none)
    (hguard : ¬((parse_args env a).retval < 0 ∨
      ((parse_args env a).args.cmdline = none ∧ (parse_args env a).args.rfp = none)))
    (hmirb : ¬((parse_args env a).args.wfp = none ∧
      (parse_args env a).args.rfp = some RFile.stdinF ∧ env.stdinEmptyNonPipe = true))
    (hmode :
      ((parse_args env a).args.mrbfile = true ∧ 0 ≤ eng.readIrepRet ∧
        (parse_args env a).args.check_syntax = false ∧ eng.runExcB = some e) ∨
      ((parse_args env a).args.mrbfile = false ∧ (parse_args env a).args.wfp = none ∧
        (parse_args env a).args.check_syntax = false ∧ eng.loadVal ≠ .undef ∧
        eng.excAfterLoad = some e)) :
    (mainRun true env eng a).exit = EXIT_FAILURE ∧
    (mainRun true env eng a).stdout =
      (parse_args env a).out ++ showcallinfo eng.tstate ++ [e.inspect] := by
  rw [mainRun_dispatch env eng a hex hguard hmirb]
  rcases hmode with ⟨hmb, hn, hcs, hexc⟩ | ⟨hmb, hwfp, hcs, hv, hexc⟩
  · unfold dispatch
    rw [if_pos hmb, if_neg (by omega : ¬eng.readIrepRet < 0), if_pos hcs, hexc]
    exact ⟨rfl, rfl⟩
  · unfold dispatch
    rw [if_neg (by simp [hmb]), if_neg (by simp [hwfp])]
    unfold afterCtx
    rw [hexc]
    dsimp only
    rw [if_pos hv]
    exact ⟨rfl, rfl⟩

/-- Witness for C5: a source-mode run of mruby -e x on which the engine
reports a pending exception after the load. -/
theorem unhandled_exception_trace_and_failure_witness :
    (mainRun true envNone { excAfterLoad := some { inspect := "boom".data } }
        ["mruby".data, '-' :: 'e' :: [], "x".data]).exit = EXIT_FAILURE ∧
    (mainRun true envNone { excAfterLoad := some { inspect := "boom".data } }
        ["mruby".data, '-' :: 'e' :: [], "x".data]).stdout =
      (parse_args envNone ["mruby".data, '-' :: 'e' :: [], "x".data]).out ++
        showcallinfo ({ excAfterLoad := some { inspect := "boom".data } } : Engine).tstate ++
        [({ inspect := "boom".data } : ExcObj).inspect] :=
  unhandled_exception_trace_and_failure envNone
    { excAfterLoad := some { inspect := "boom".data } }
    ["mruby".data, '-' :: 'e' :: [], "x".data] { inspect := "boom".data }
    (by decide) (by decide) (by decide) (Or.inr (by decide))

theorem dispatch_events_mono (eng : Engine) (args : Args) (n0 : Int) (out0 : List Str)
    (ev0 : List Event) (opened : List Str) (x : Event) (hx : x ∈ ev0) :
    x ∈ (dispatch eng args n0 out0 ev0 opened).events := by
  unfold dispatch afterCtx
  dsimp only
  repeat first | (simp [hx]) | split

/-- C8: flag parsing stops at the first non-flag token, or at a lone dash
token which selects standard input; after the stop point the next token
becomes the script filename when no input was selected yet, and the
remaining tokens are stored verbatim and in order as the script argument
vector, which main hands to the engine as the global constant ARGV. -/
theorem parsing_stops_and_forwards_argv :
    (∀ prog st c0 t1 rest, c0 ≠ '-' →
      parseLoop prog st ((c0 :: t1) :: rest) = .fall st ((c0 :: t1) :: rest)) ∧
    (∀ prog st rest, parseLoop prog st (['-'] :: rest) =
      .fall { st with args := { st.args with filename := some ['-'], rfp := some .stdinF },
                      infile := some ['-'] } rest) ∧
    (∀ env prog st f rest2, st.args.rfp = none → st.args.cmdline = none →
      env.canRead f = true →
      (postLoop env prog st (f :: rest2)).args.filename = some f ∧
      (postLoop env prog st (f :: rest2)).args.argv = rest2) ∧
    (∀ env prog st rest c, st.args.cmdline = some c →
      (postLoop env prog st rest).args.argv = rest ∧
      (postLoop env prog st rest).args.filename = st.args.filename) ∧
    (∀ env eng a, (parse_args env a).exited = none →
      ¬((parse_args env a).retval < 0 ∨
        ((parse_args env a).args.cmdline = none ∧ (parse_args env a).args.rfp = none)) →
      ¬((parse_args env a).args.wfp = none ∧
        (parse_args env a).args.rfp = some RFile.stdinF ∧ env.stdinEmptyNonPipe = true) →
      Event.defineARGV (parse_args env a).args.argv ∈ (mainRun true env eng a).events) := by
  refine ⟨fun prog st c0 t1 rest h => plNonflag prog st c0 t1 rest h, plDash, ?_, ?_, ?_⟩
  · intro env prog st f rest2 h1 h2 h3
    unfold postLoop postInput
    rw [if_pos ⟨h1, h2⟩]
    dsimp only
    rw [if_pos h3]
    dsimp only
    rw [postOutput_filename, postOutput_argv]
    exact ⟨rfl, rfl⟩
  · intro env prog st rest c h
    unfold postLoop postInput
    have hcond : ¬(st.args.rfp = none ∧ st.args.cmdline = none) := by
      intro hc
      rw [h] at hc
      exact absurd hc.2 (by simp)
    rw [if_neg hcond]
    rw [postOutput_argv, postOutput_filename]
    exact ⟨rfl, rfl⟩
  · intro env eng a h1 h2 h3
    rw [mainRun_dispatch env eng a h1 h2 h3]
    exact dispatch_events_mono _ _ _ _ _ _ _ (by simp)

/-- Witness for C8: the tokens after the script filename x.rb are
forwarded verbatim as the ARGV constant. -/
theorem parsing_stops_and_forwards_argv_witness :
    Event.defineARGV ["a1".data, "a2".data] ∈
      (mainRun true envAll {} ["mruby".data, "x.rb".data, "a1".data, "a2".data]).events := by
  have h := parsing_stops_and_forwards_argv.2.2.2.2 envAll {}
    ["mruby".data, "x.rb".data, "a1".data, "a2".data] (by decide) (by decide) (by decide)
  have e : (parse_args envAll ["mruby".data, "x.rb".data, "a1".data, "a2".data]).args.argv =
      ["a1".data, "a2".data] := by decide
  rw [e] at h
  exact h
